import Mathlib

/-!
Verification of the imp25 context-assembly chat backend.

The repository holds two Flask drafts of the same program:
`src/app.py` and `src/imp_final_trial.py`.  Both scan a directory for
`*.json` files, classify each parsed value as an interview transcript
(a JSON list), a survey analytics document (a JSON object with one of
the keys `survey_summary` / `free_text_insights`) or unrecognized,
format the recognized documents into labeled text blocks, join the
blocks with blank lines, embed the result into a system prompt between
`--- INTERVIEW CONTEXT START ---` / `--- INTERVIEW CONTEXT END ---`
delimiters, and expose a `POST /chat` endpoint that forwards the prompt
plus the user query to an external generation API.

This file shallowly embeds those functions.  JSON values are the
inductive `Json` (numbers are modelled as integers; float formatting is
irrelevant to every property below).  File system effects are modelled
by `FileData`: a file is unreadable (`open` raises), malformed
(`json.load` raises) or parses to a `Json` value.  Python exceptions
are modelled with `Except Unit`.
-/

namespace Imp25

/-- A parsed JSON value as produced by Python's `json.load`.  Object
fields keep source order, as Python dicts do. -/
inductive Json where
  | null
  | bool (b : Bool)
  | num (n : Int)
  | str (s : String)
  | arr (elts : List Json)
  | obj (fields : List (String × Json))

/-- Python `key in data` for a dict. -/
def hasKey (kvs : List (String × Json)) (k : String) : Bool :=
  kvs.any (fun p => p.1 == k)

/-- Python `data[key]` / `data.get(key)` for a dict. -/
def lookupKey (kvs : List (String × Json)) (k : String) : Option Json :=
  (kvs.find? (fun p => p.1 == k)).map (fun p => p.2)

/-- Python `entry.get(key, default)` for a dict. -/
def getField (kvs : List (String × Json)) (k : String) (dflt : Json) : Json :=
  (lookupKey kvs k).getD dflt

/-- The decimal digit characters, used to render JSON numbers. -/
def digitChar (r : Nat) : Char :=
  if r = 0 then '0' else if r = 1 then '1' else if r = 2 then '2'
  else if r = 3 then '3' else if r = 4 then '4' else if r = 5 then '5'
  else if r = 6 then '6' else if r = 7 then '7' else if r = 8 then '8'
  else '9'

/-- Decimal digits of a positive number, most significant first,
prepended to `acc`. -/
def natDigitsAux : Nat → List Char → List Char
  | 0, acc => acc
  | n + 1, acc => natDigitsAux ((n + 1) / 10) (digitChar ((n + 1) % 10) :: acc)
decreasing_by
  exact Nat.div_lt_self (Nat.succ_pos n) (by omega)

/-- Decimal rendering of a natural number, as Python prints it. -/
def natDigits (n : Nat) : String :=
  if n = 0 then "0" else ⟨natDigitsAux n []⟩

/-- Decimal rendering of an integer, as Python's `str`/`json.dumps`
print an int. -/
def numStr (n : Int) : String :=
  if n < 0 then "-" ++ natDigits n.natAbs else natDigits n.natAbs

/-- Python `repr` of a parsed JSON value (string escaping is not
reproduced; no claim depends on it). -/
def pyRepr : Json → String
  | .null => "None"
  | .bool true => "True"
  | .bool false => "False"
  | .num n => numStr n
  | .str s => "\x27" ++ s ++ "\x27"
  | .arr xs =>
      "[" ++ String.intercalate ", " (xs.attach.map (fun e => pyRepr e.1)) ++ "]"
  | .obj kvs =>
      "\x7b" ++
        String.intercalate ", "
          (kvs.attach.map (fun p => "\x27" ++ p.1.1 ++ "\x27: " ++ pyRepr p.1.2)) ++
      "\x7d"
decreasing_by
  · have := List.sizeOf_lt_of_mem e.2
    simp at *
    omega
  · have h := List.sizeOf_lt_of_mem p.2
    have h2 : sizeOf p.1.2 < sizeOf p.1 := by
      rcases p with ⟨⟨k, v⟩, hm⟩
      simp
    simp at *
    omega

/-- Python `str` of a parsed JSON value, as an f-string renders it. -/
def pyStr : Json → String
  | .str s => s
  | j => pyRepr j

/-- Indentation of `n` spaces. -/
def spaces : Nat → String
  | 0 => ""
  | n + 1 => " " ++ spaces n

/-- Python `json.dumps(v, indent=2)` at nesting level `ind` (string
escaping is not reproduced; no claim depends on it). -/
def dumps (ind : Nat) : Json → String
  | .null => "null"
  | .bool true => "true"
  | .bool false => "false"
  | .num n => numStr n
  | .str s => "\"" ++ s ++ "\""
  | .arr [] => "[]"
  | .arr (x :: xs) =>
      "[\n" ++
        String.intercalate ",\n"
          (((x :: xs).attach.map (fun e => spaces (ind + 2) ++ dumps (ind + 2) e.1))) ++
      "\n" ++ spaces ind ++ "]"
  | .obj [] => "\x7b\x7d"
  | .obj (kv :: kvs) =>
      "\x7b\n" ++
        String.intercalate ",\n"
          (((kv :: kvs).attach.map
            (fun p => spaces (ind + 2) ++ "\"" ++ p.1.1 ++ "\": " ++ dumps (ind + 2) p.1.2))) ++
      "\n" ++ spaces ind ++ "\x7d"
termination_by j => sizeOf j
decreasing_by
  · have := List.sizeOf_lt_of_mem e.2
    simp at *
    omega
  · have h := List.sizeOf_lt_of_mem p.2
    have h2 : sizeOf p.1.2 < sizeOf p.1 := by
      rcases p with ⟨⟨k, v⟩, hm⟩
      simp
    simp at *
    omega

/-- Top-level `json.dumps(v, indent=2)` as the survey formatter calls it. -/
def jsonDumps (j : Json) : String := dumps 0 j

/-- Python `sub in s` substring test, on the pattern and text as char
lists. -/
def listContains (pat : List Char) : List Char → Bool
  | [] => pat.isEmpty
  | c :: rest => pat.isPrefixOf (c :: rest) || listContains pat rest

/-- Python `sub in s` on strings. -/
def strContains (s pat : String) : Bool := listContains pat.data s.data

/-- Python `s.endswith(suffix)`, used to model the `*.json` glob. -/
def strEndsWith (s suffix : String) : Bool := suffix.data.isSuffixOf s.data

/-- Python `os.path.basename`: the part of the path after the last slash. -/
def basename (p : String) : String :=
  ⟨(p.data.reverse.takeWhile (fun c => c != '/')).reverse⟩

/-- Python `str.upper` for the ASCII range (the section names the
sources feed it are ASCII). -/
def upChar (c : Char) : Char :=
  if 97 ≤ c.toNat ∧ c.toNat ≤ 122 then Char.ofNat (c.toNat - 32) else c

/-- Python `section.upper()`. -/
def strUpper (s : String) : String := ⟨s.data.map upChar⟩

/-- The outcome of opening and `json.load`-ing one file: `open` raises,
`json.load` raises, or parsing succeeds. -/
inductive FileData where
  | unreadable
  | malformed
  | parsed (j : Json)

/-- Header line emitted by `load_and_parse_json`. -/
def interviewHeader (label : String) : String :=
  "=== Interview File: " ++ label ++ " ==="

/-- Header line emitted by `load_survey_json`. -/
def surveyHeader (label : String) : String :=
  "=== Survey Analytics File: " ++ label ++ " ==="

/-- The survey-summary section marker part appended by `load_survey_json`. -/
def summaryHeaderPart : String := "\n--- SURVEY SUMMARY ---"

/-- The free-text-insights section marker part appended by `load_survey_json`. -/
def insightsHeaderPart : String := "\n--- FREE TEXT INSIGHTS ---"

/-- One `[SECTION]` part of the survey-summary section. -/
def sectionPart (k : String) : String := "\n[" ++ strUpper k ++ "]"

/-- One question/summary part of the free-text-insights section. -/
def qsPart (q : String) (v : Json) : String :=
  "\nQ: " ++ q ++ "\nSummary: " ++ pyStr v

/-- One turn of `load_and_parse_json`'s loop body:
`entry.get("speaker", "Unknown")` etc. require `entry` to be a dict;
on any other value `.get` raises `AttributeError`. -/
def turnBlock : Json → Except Unit String
  | .obj kvs =>
      .ok ("\n" ++ pyStr (getField kvs "speaker" (Json.str "Unknown")) ++
           ":\nQ: " ++ pyStr (getField kvs "question" (Json.str "")) ++
           "\nA: " ++ pyStr (getField kvs "answer" (Json.str "")))
  | _ => .error ()

/-- The turn loop of `load_and_parse_json`: an exception at any entry
propagates, discarding the whole list. -/
def mapTurns : List Json → Except Unit (List String)
  | [] => .ok []
  | e :: rest =>
      match turnBlock e with
      | .error er => .error er
      | .ok b =>
          match mapTurns rest with
          | .error er => .error er
          | .ok bs => .ok (b :: bs)

/-- The `parts` list built by `load_and_parse_json` from the parsed
list, before `"\n".join`. -/
def interviewParts (label : String) (entries : List Json) : Except Unit (List String) :=
  match mapTurns entries with
  | .error e => .error e
  | .ok bs => .ok (interviewHeader label :: bs)

/-- Function `load_and_parse_json` of `src/imp_final_trial.py` at its call site
(the re-read of the file yields the already-parsed list `entries`): no
try/except, so an exception propagates to the caller. -/
def load_and_parse_json_imp (path : String) (entries : List Json) : Except Unit String :=
  match interviewParts (basename path) entries with
  | .error e => .error e
  | .ok ps => .ok (String.intercalate "\n" ps)

/-- Function `load_and_parse_json` of `src/app.py` at its call site: the
blanket `except` returns `""` on any error. -/
def load_and_parse_json_app (path : String) (entries : List Json) : String :=
  match load_and_parse_json_imp path entries with
  | .error _ => ""
  | .ok s => s

/-- The survey-summary section of `load_survey_json`'s `parts`:
absent key contributes nothing; `data["survey_summary"].items()`
raises unless the value is a dict. -/
def summarySection : Option Json → Except Unit (List String)
  | none => .ok []
  | some (.obj m) =>
      .ok (summaryHeaderPart :: m.flatMap (fun p => [sectionPart p.1, jsonDumps p.2]))
  | some _ => .error ()

/-- The free-text-insights section of `load_survey_json`'s `parts`. -/
def insightsSection : Option Json → Except Unit (List String)
  | none => .ok []
  | some (.obj m) =>
      .ok (insightsHeaderPart :: m.map (fun p => qsPart p.1 p.2))
  | some _ => .error ()

/-- The `parts` list built by `load_survey_json` from the parsed dict
`kvs`, before `"\n".join`. -/
def surveyParts (label : String) (kvs : List (String × Json)) : Except Unit (List String) :=
  match summarySection (lookupKey kvs "survey_summary") with
  | .error e => .error e
  | .ok s1 =>
      match insightsSection (lookupKey kvs "free_text_insights") with
      | .error e => .error e
      | .ok s2 => .ok (surveyHeader label :: (s1 ++ s2))

/-- Function `load_survey_json` of `src/imp_final_trial.py` at its call site
(the parsed value is the dict `kvs`): no try/except. -/
def load_survey_json_imp (path : String) (kvs : List (String × Json)) : Except Unit String :=
  match surveyParts (basename path) kvs with
  | .error e => .error e
  | .ok ps => .ok (String.intercalate "\n" ps)

/-- Function `load_survey_json` of `src/app.py`: the blanket `except` returns
`""` on any error. -/
def load_survey_json_app (path : String) (kvs : List (String × Json)) : String :=
  match load_survey_json_imp path kvs with
  | .error _ => ""
  | .ok s => s

/-- The document classes of the spec's classifier. -/
inductive DocClass where
  | interview
  | survey
  | unrecognized
deriving DecidableEq

/-- The classifier, as both assemblers inline it:
`isinstance(data, list)`, then
`isinstance(data, dict) and ("survey_summary" in data or "free_text_insights" in data)`. -/
def classify : Json → DocClass
  | .arr _ => .interview
  | .obj kvs =>
      if hasKey kvs "survey_summary" || hasKey kvs "free_text_insights" then .survey
      else .unrecognized
  | _ => .unrecognized

/-- Lexicographic order on char lists by code point, as Python compares
path strings. -/
def charListLe : List Char → List Char → Bool
  | [], _ => true
  | _ :: _, [] => false
  | a :: as, b :: bs =>
    if a.toNat < b.toNat then true
    else if b.toNat < a.toNat then false
    else charListLe as bs

/-- Order on directory entries by path, used by `sorted(glob.glob(...))`. -/
def fileLe (a b : String × FileData) : Prop :=
  charListLe a.1.data b.1.data = true

instance : DecidableRel fileLe := fun a b =>
  inferInstanceAs (Decidable (charListLe a.1.data b.1.data = true))

/-- Python `glob.glob(os.path.join(directory, "*.json"))`: the directory
entries whose path ends in `.json`.  A directory is modelled as the
list of its entries, each a full path with the outcome of reading it. -/
def globJson (files : List (String × FileData)) : List (String × FileData) :=
  files.filter (fun f => strEndsWith f.1 ".json")

/-- Python `sorted(...)` over the glob results. -/
def sortFiles (files : List (String × FileData)) : List (String × FileData) :=
  List.insertionSort fileLe files

/-- One iteration of `load_context`'s loop in `src/app.py`:
paths containing `package` or `lock` are skipped first; then the file
is opened OUTSIDE the try, so an unreadable file raises out of the
whole scan; `json.load` failure is caught and skipped; a recognized
document is formatted (the formatters catch their own errors and
return `""`); anything else appends nothing. -/
def processFile_app (f : String × FileData) : Except Unit (Option String) :=
  if strContains f.1 "package" || strContains f.1 "lock" then .ok none
  else
    match f.2 with
    | .unreadable => .error ()
    | .malformed => .ok none
    | .parsed (.arr entries) => .ok (some (load_and_parse_json_app f.1 entries))
    | .parsed (.obj kvs) =>
        if hasKey kvs "survey_summary" || hasKey kvs "free_text_insights" then
          .ok (some (load_survey_json_app f.1 kvs))
        else .ok none
    | .parsed _ => .ok none

/-- Loop of `load_context` over the sorted paths: an error aborts the
whole scan (nothing is returned), otherwise the appended blocks are
collected in order. -/
def contextGo_app : List (String × FileData) → Except Unit (List String)
  | [] => .ok []
  | f :: rest =>
      match processFile_app f with
      | .error e => .error e
      | .ok none => contextGo_app rest
      | .ok (some b) =>
          match contextGo_app rest with
          | .error e => .error e
          | .ok bs => .ok (b :: bs)

/-- The `parts` list of `load_context` in `src/app.py` (whose length is
the reported block count). -/
def contextParts_app (files : List (String × FileData)) : Except Unit (List String) :=
  contextGo_app (sortFiles (globJson files))

/-- Function `load_context` of `src/app.py`: `"\n\n".join(parts)`. -/
def load_context (files : List (String × FileData)) : Except Unit String :=
  (contextParts_app files).map (fun ps => String.intercalate "\n\n" ps)

/-- One iteration of `load_all_json_from_folder`'s loop in
`src/imp_final_trial.py`: the try covers the open, the parse and the
dispatch, so any failure just skips the file; there is no
`package`/`lock` filter. -/
def processFile_imp (f : String × FileData) : Option String :=
  match f.2 with
  | .unreadable => none
  | .malformed => none
  | .parsed (.arr entries) =>
      match load_and_parse_json_imp f.1 entries with
      | .error _ => none
      | .ok s => some s
  | .parsed (.obj kvs) =>
      if hasKey kvs "survey_summary" || hasKey kvs "free_text_insights" then
        match load_survey_json_imp f.1 kvs with
        | .error _ => none
        | .ok s => some s
      else none
  | .parsed _ => none

/-- The `parts` list of `load_all_json_from_folder` in
`src/imp_final_trial.py`. -/
def contextParts_imp (files : List (String × FileData)) : List String :=
  (sortFiles (globJson files)).filterMap processFile_imp

/-- Function `load_all_json_from_folder` of `src/imp_final_trial.py`. -/
def load_all_json_from_folder (files : List (String × FileData)) : String :=
  String.intercalate "\n\n" (contextParts_imp files)

/-- The text of `src/app.py`'s `SYSTEM_INSTRUCTION` f-string before the
interpolated context. -/
def sysLit1_app : String :=
  "\nYou are an analytical assistant, built to answer questions that cafe entreprenuers have when starting a new cafe. \nYou DO NOT just repeat or summarize the context provided.\n\nYour goals:\n1. Use the interview transcript contexts as background knowledge.\n2. Use the survey analytics as a customer perspective to cafe-going.\n3. Use both transcripts and survey to give holistic answers.\n4. Think beyond explicit text.\n5. Infer patterns, motives, insights, and deeper meanings.\n6. Provide thoughtful, evaluative, and analytical answers.\n7. If the user asks about something subjective (e.g., fonts, design decisions), use the context to think of an answer.\n\nBe concise, analytical, and insight-driven.\n\n--- INTERVIEW CONTEXT START ---\n"

/-- The text of `src/app.py`'s `SYSTEM_INSTRUCTION` f-string after the
interpolated context. -/
def sysLit2_app : String := "\n--- INTERVIEW CONTEXT END ---\n"

/-- Constant `SYSTEM_INSTRUCTION` of `src/app.py` as a function of the loaded
context (the f-string interpolates `FULL_INTERVIEW_CONTEXT`). -/
def SYSTEM_INSTRUCTION (ctx : String) : String := sysLit1_app ++ ctx ++ sysLit2_app

/-- The text of `src/imp_final_trial.py`'s `system_instruction_text`
f-string before the interpolated context (each line carries the
4-space indentation of the source). -/
def sysLit1_imp : String :=
  "\n    You are an analytical assistant, built to answer questions that cafe entrepreneurs have when starting a new cafe. \n    You DO NOT just repeat or summarize the context provided.\n\n    Your goals:\n    1. Use the interview transcript contexts as background knowledge.\n    2. Use the survey analytics as a customer perspective to cafe-going.\n    3. Use both transcripts and survey to give holistic answers.\n    4. Think beyond explicit text.\n    5. Infer patterns, motives, insights, and deeper meanings.\n    6. Provide thoughtful, evaluative, and analytical answers.\n\n    --- INTERVIEW CONTEXT START ---\n    "

/-- The text after the interpolated context in
`src/imp_final_trial.py`'s `system_instruction_text`. -/
def sysLit2_imp : String := "\n    --- INTERVIEW CONTEXT END ---\n    "

/-- String `system_instruction_text` as built inside `chat` of
`src/imp_final_trial.py`. -/
def system_instruction_text (ctx : String) : String := sysLit1_imp ++ ctx ++ sysLit2_imp

/-- Python truthiness of a parsed JSON value. -/
def truthy : Json → Bool
  | .null => false
  | .bool b => b
  | .num n => !(n == 0)
  | .str s => !s.data.isEmpty
  | .arr xs => !xs.isEmpty
  | .obj kvs => !kvs.isEmpty

/-- Python truthiness of `dict.get`'s result (`None` when absent). -/
def pyTruthy : Option Json → Bool
  | none => false
  | some j => truthy j

/-- A JSON error/response envelope. -/
def errorBody (msg : String) : Json := .obj [("error", .str msg)]

/-- What a `POST /chat` handler produced: HTTP status, JSON payload,
and whether `client.models.generate_content` was invoked. -/
structure ChatReply where
  status : Nat
  body : Json
  generateCalled : Bool

/-- The `chat` handler of `src/app.py` on a JSON-object request body:
`user_query = user_data.get('message')`; falsy query gives 400 before
any generation; otherwise the generation call's outcome `gen` decides
200 or 500. -/
def chat_app (body : List (String × Json)) (gen : Except String String) : ChatReply :=
  let user_query := lookupKey body "message"
  if pyTruthy user_query then
    match gen with
    | .ok t => ⟨200, .obj [("response", .str t)], true⟩
    | .error e => ⟨500, errorBody e, true⟩
  else ⟨400, errorBody "No message provided", false⟩

/-- Python `Part.from_text(text=v)` of the `google-genai` SDK: `Part`
is a pydantic-v2 model whose `text` field is `str`, and pydantic v2
does not coerce int/bool/list/dict to `str`, so a non-string raises
`ValidationError` (its message text is the library's, not reproduced
here) and a string is accepted. -/
def partFromText : Json → Except String String
  | .str s => .ok s
  | _ => .error "validation error for Part: text must be a string"

/-- The `chat` handler of `src/imp_final_trial.py`:
`user_query = data.get('query')`; a falsy query gives 400; otherwise,
inside the `try`, `Part.from_text(text=user_query)` runs BEFORE
`client.models.generate_content`, so a truthy non-string query raises
and is answered 500 without the generation call ever being invoked;
for a (non-empty) string query the generation call's outcome `gen`
decides 200 or 500. -/
def chat_imp (body : List (String × Json)) (gen : Except String String) : ChatReply :=
  let user_query := lookupKey body "query"
  if pyTruthy user_query then
    match partFromText (user_query.getD Json.null) with
    | .error e => ⟨500, errorBody e, false⟩
    | .ok _ =>
        match gen with
        | .ok t => ⟨200, .obj [("response", .str t)], true⟩
        | .error e => ⟨500, errorBody e, true⟩
  else ⟨400, errorBody "No \x27query\x27 provided in request body", false⟩

/-! Helper lemmas. -/

theorem char_eq_of_toNat_eq {c d : Char} (h : c.toNat = d.toNat) : c = d :=
  Char.ext (UInt32.ext h)

theorem charListLe_refl : ∀ x : List Char, charListLe x x = true
  | [] => rfl
  | a :: as => by
      simp only [charListLe, lt_irrefl, if_false, ite_self]
      exact charListLe_refl as

theorem charListLe_total : ∀ x y : List Char, charListLe x y = true ∨ charListLe y x = true
  | [], _ => Or.inl rfl
  | _ :: _, [] => Or.inr rfl
  | a :: as, b :: bs => by
      rcases Nat.lt_trichotomy a.toNat b.toNat with h | h | h
      · left
        simp [charListLe, h]
      · have h1 : ¬ a.toNat < b.toNat := by omega
        have h2 : ¬ b.toNat < a.toNat := by omega
        rcases charListLe_total as bs with ht | ht
        · left
          simp [charListLe, h1, h2, ht]
        · right
          simp [charListLe, h1, h2, ht]
      · right
        simp [charListLe, h]

theorem charListLe_trans :
    ∀ x y z : List Char, charListLe x y = true → charListLe y z = true →
      charListLe x z = true
  | [], _, _ => fun _ _ => rfl
  | a :: as, [], _ => fun h _ => by simp [charListLe] at h
  | a :: as, b :: bs, [] => fun _ h => by simp [charListLe] at h
  | a :: as, b :: bs, c :: cs => by
      intro h1 h2
      rcases Nat.lt_trichotomy a.toNat b.toNat with hab | hab | hab
      · rcases Nat.lt_trichotomy b.toNat c.toNat with hbc | hbc | hbc
        · simp [charListLe, show a.toNat < c.toNat by omega]
        · simp [charListLe, show a.toNat < c.toNat by omega]
        · simp [charListLe, hbc, show ¬ b.toNat < c.toNat by omega] at h2
      · rcases Nat.lt_trichotomy b.toNat c.toNat with hbc | hbc | hbc
        · simp [charListLe, show a.toNat < c.toNat by omega]
        · have hac : a.toNat = c.toNat := by omega
          have h1t : charListLe as bs = true := by
            simpa [charListLe, show ¬ a.toNat < b.toNat by omega,
              show ¬ b.toNat < a.toNat by omega] using h1
          have h2t : charListLe bs cs = true := by
            simpa [charListLe, show ¬ b.toNat < c.toNat by omega,
              show ¬ c.toNat < b.toNat by omega] using h2
          simp [charListLe, show ¬ a.toNat < c.toNat by omega,
            show ¬ c.toNat < a.toNat by omega,
            charListLe_trans as bs cs h1t h2t]
        · simp [charListLe, hbc, show ¬ b.toNat < c.toNat by omega] at h2
      · simp [charListLe, hab, show ¬ a.toNat < b.toNat by omega] at h1

theorem charListLe_antisymm :
    ∀ x y : List Char, charListLe x y = true → charListLe y x = true → x = y
  | [], [] => fun _ _ => rfl
  | [], _ :: _ => fun _ h => by simp [charListLe] at h
  | _ :: _, [] => fun h _ => by simp [charListLe] at h
  | a :: as, b :: bs => by
      intro h1 h2
      rcases Nat.lt_trichotomy a.toNat b.toNat with hab | hab | hab
      · simp [charListLe, hab, show ¬ b.toNat < a.toNat by omega] at h2
      · have h1t : charListLe as bs = true := by
          simpa [charListLe, show ¬ a.toNat < b.toNat by omega,
            show ¬ b.toNat < a.toNat by omega] using h1
        have h2t : charListLe bs as = true := by
          simpa [charListLe, show ¬ a.toNat < b.toNat by omega,
            show ¬ b.toNat < a.toNat by omega] using h2
        rw [char_eq_of_toNat_eq hab, charListLe_antisymm as bs h1t h2t]
      · simp [charListLe, hab, show ¬ a.toNat < b.toNat by omega] at h1

instance : IsTotal (String × FileData) fileLe :=
  ⟨fun a b => charListLe_total a.1.data b.1.data⟩

instance : IsTrans (String × FileData) fileLe :=
  ⟨fun a b c => charListLe_trans a.1.data b.1.data c.1.data⟩

/-- Strict version of `fileLe`, used to show that sorting a
duplicate-free directory listing is unique. -/
def fileLt (a b : String × FileData) : Prop := fileLe a b ∧ a.1 ≠ b.1

theorem string_eq_of_data_eq {s t : String} (h : s.data = t.data) : s = t := by
  cases s
  cases t
  simp only at h
  rw [h]

instance : IsAntisymm (String × FileData) fileLt :=
  ⟨fun _ _ h1 h2 =>
    absurd (string_eq_of_data_eq (charListLe_antisymm _ _ h1.1 h2.1)) h1.2⟩

theorem sortFiles_perm (l : List (String × FileData)) : (sortFiles l).Perm l :=
  List.perm_insertionSort fileLe l

theorem sortFiles_sorted (l : List (String × FileData)) :
    List.Sorted fileLe (sortFiles l) :=
  List.sorted_insertionSort fileLe l

theorem sortFiles_sorted_strict (l : List (String × FileData))
    (hnd : (l.map Prod.fst).Nodup) : List.Pairwise fileLt (sortFiles l) := by
  have hnd2 : ((sortFiles l).map Prod.fst).Nodup :=
    (((sortFiles_perm l).map Prod.fst).nodup_iff).mpr hnd
  have hne : List.Pairwise (fun a b : String × FileData => a.1 ≠ b.1) (sortFiles l) :=
    List.pairwise_map.mp hnd2
  exact ((sortFiles_sorted l).and hne).imp (fun h => ⟨h.1, h.2⟩)

theorem sortFiles_eq_of_perm {l1 l2 : List (String × FileData)}
    (h : l1.Perm l2) (hnd : (l1.map Prod.fst).Nodup) : sortFiles l1 = sortFiles l2 := by
  have hnd2 : (l2.map Prod.fst).Nodup := ((h.map Prod.fst).nodup_iff).mp hnd
  exact List.eq_of_perm_of_sorted
    ((sortFiles_perm l1).trans (h.trans (sortFiles_perm l2).symm))
    (sortFiles_sorted_strict l1 hnd) (sortFiles_sorted_strict l2 hnd2)

theorem globJson_nodup {files : List (String × FileData)}
    (hnd : (files.map Prod.fst).Nodup) : ((globJson files).map Prod.fst).Nodup :=
  hnd.sublist ((List.filter_sublist files).map Prod.fst)

theorem lookupKey_eq_none_iff (kvs : List (String × Json)) (k : String) :
    lookupKey kvs k = none ↔ hasKey kvs k = false := by
  induction kvs with
  | nil => simp [lookupKey, hasKey]
  | cons p rest ih =>
      by_cases h : p.1 == k
      · simp [lookupKey, hasKey, List.find?_cons, h]
      · rw [show lookupKey (p :: rest) k = lookupKey rest k from by
              simp [lookupKey, List.find?_cons, h],
            show hasKey (p :: rest) k = hasKey rest k from by
              simp [hasKey, h]]
        exact ih

theorem intercalate_singleton (s : String) : String.intercalate "\n" [s] = s := by
  cases s
  rfl

theorem ne_of_head {s t : String} {c d : Char} {l1 l2 : List Char}
    (hs : s.data = c :: l1) (ht : t.data = d :: l2) (h : c ≠ d) : s ≠ t := by
  intro e
  subst e
  rw [ht] at hs
  injection hs with h1 _
  exact h h1.symm

theorem ne_of_two_heads {s t : String} {c1 c2 d1 d2 : Char} {l1 l2 : List Char}
    (hs : s.data = c1 :: c2 :: l1) (ht : t.data = d1 :: d2 :: l2)
    (h : ¬ (c1 = d1 ∧ c2 = d2)) : s ≠ t := by
  intro e
  subst e
  rw [ht] at hs
  injection hs with h1 hr
  injection hr with h2 _
  exact h ⟨h1.symm, h2.symm⟩

theorem digitChar_ne_newline (r : Nat) : digitChar r ≠ '\n' := by
  unfold digitChar
  split_ifs <;> decide

theorem newline_not_mem_natDigitsAux :
    ∀ (n : Nat) (acc : List Char), '\n' ∉ acc → '\n' ∉ natDigitsAux n acc := by
  intro n
  induction n using Nat.strong_induction_on with
  | _ n ih =>
      intro acc hacc
      match n with
      | 0 => simpa [natDigitsAux] using hacc
      | m + 1 =>
          rw [natDigitsAux]
          refine ih ((m + 1) / 10) (by omega) _ ?_
          intro hm
          rcases List.mem_cons.mp hm with h0 | h0
          · exact digitChar_ne_newline _ h0.symm
          · exact hacc h0

theorem newline_not_mem_numStr (n : Int) : '\n' ∉ (numStr n).data := by
  have hnat : ∀ m : Nat, '\n' ∉ (natDigits m).data := by
    intro m hm
    rw [natDigits] at hm
    split_ifs at hm with h0
    · simp at hm
    · exact newline_not_mem_natDigitsAux m [] (by simp) hm
  intro h
  rw [numStr] at h
  split_ifs at h with hneg
  · rw [String.data_append] at h
    rcases List.mem_append.mp h with h0 | h0
    · simp at h0
    · exact hnat _ h0
  · exact hnat _ h

theorem numStr_ne_insightsHeader (n : Int) : numStr n ≠ insightsHeaderPart := by
  intro e
  have : '\n' ∈ (numStr n).data := by
    rw [e]
    decide
  exact newline_not_mem_numStr n this

theorem jsonDumps_ne_insightsHeader (v : Json) : jsonDumps v ≠ insightsHeaderPart := by
  cases v with
  | null =>
      simp only [jsonDumps, dumps]
      decide
  | bool b =>
      cases b <;> (simp only [jsonDumps, dumps]; decide)
  | num n =>
      simp only [jsonDumps, dumps]
      exact numStr_ne_insightsHeader n
  | str s =>
      simp only [jsonDumps, dumps]
      exact ne_of_head rfl rfl (by decide)
  | arr xs =>
      cases xs with
      | nil =>
          simp only [jsonDumps, dumps]
          decide
      | cons x rest =>
          simp only [jsonDumps, dumps]
          exact ne_of_head rfl rfl (by decide)
  | obj kvs =>
      cases kvs with
      | nil =>
          simp only [jsonDumps, dumps]
          decide
      | cons kv rest =>
          simp only [jsonDumps, dumps]
          exact ne_of_head rfl rfl (by decide)

theorem surveyHeader_ne_summaryHeader (label : String) :
    surveyHeader label ≠ summaryHeaderPart :=
  ne_of_head rfl rfl (by decide)

theorem surveyHeader_ne_insightsHeader (label : String) :
    surveyHeader label ≠ insightsHeaderPart :=
  ne_of_head rfl rfl (by decide)

theorem qsPart_ne_summaryHeader (q : String) (v : Json) :
    qsPart q v ≠ summaryHeaderPart :=
  ne_of_two_heads rfl rfl (by decide)

theorem sectionPart_ne_insightsHeader (k : String) :
    sectionPart k ≠ insightsHeaderPart :=
  ne_of_two_heads rfl rfl (by decide)

theorem processFile_app_ok (f : String × FileData) (h : f.2 ≠ FileData.unreadable) :
    ∃ r, processFile_app f = Except.ok r := by
  obtain ⟨p, fd⟩ := f
  simp only [processFile_app]
  split_ifs
  · exact ⟨none, rfl⟩
  · cases fd with
    | unreadable => exact absurd rfl h
    | malformed => exact ⟨none, rfl⟩
    | parsed j =>
        cases j with
        | arr entries => exact ⟨some (load_and_parse_json_app p entries), rfl⟩
        | obj kvs =>
            by_cases hk : (hasKey kvs "survey_summary" || hasKey kvs "free_text_insights") = true
            · exact ⟨some (load_survey_json_app p kvs), by simp [hk]⟩
            · exact ⟨none, by simp [hk]⟩
        | null => exact ⟨none, rfl⟩
        | bool b => exact ⟨none, rfl⟩
        | num n => exact ⟨none, rfl⟩
        | str s => exact ⟨none, rfl⟩

theorem contextGo_app_isOk :
    ∀ l : List (String × FileData), (∀ f ∈ l, f.2 ≠ FileData.unreadable) →
      ∃ ps, contextGo_app l = Except.ok ps := by
  intro l
  induction l with
  | nil => exact fun _ => ⟨[], rfl⟩
  | cons f rest ih =>
      intro h
      obtain ⟨r, hr⟩ := processFile_app_ok f (h f (by simp))
      obtain ⟨ps, hps⟩ := ih (fun g hg => h g (by simp [hg]))
      cases r with
      | none => exact ⟨ps, by simp only [contextGo_app, hr, hps]⟩
      | some b => exact ⟨b :: ps, by simp only [contextGo_app, hr, hps]⟩

theorem mem_of_mem_sortGlob {files : List (String × FileData)} {f : String × FileData}
    (h : f ∈ sortFiles (globJson files)) : f ∈ files :=
  List.mem_of_mem_filter ((sortFiles_perm (globJson files)).subset h)

/-- The app-draft filter on paths: `True` when the path survives the
`package`/`lock` skip. -/
def keepPath (f : String × FileData) : Bool :=
  !(strContains f.1 "package" || strContains f.1 "lock")

theorem contextGo_app_filter :
    ∀ l : List (String × FileData), contextGo_app l = contextGo_app (l.filter keepPath) := by
  intro l
  induction l with
  | nil => rfl
  | cons f rest ih =>
      by_cases h : keepPath f = true
      · rw [List.filter_cons_of_pos h]
        simp only [contextGo_app]
        rw [ih]
      · have hpf : processFile_app f = Except.ok none := by
          have hor : (strContains f.1 "package" || strContains f.1 "lock") = true := by
            rcases Bool.eq_false_or_eq_true
                (strContains f.1 "package" || strContains f.1 "lock") with hx | hx
            · exact hx
            · exact absurd (by simp [keepPath, hx]) h
          simp [processFile_app, hor]
        rw [List.filter_cons_of_neg h]
        simp only [contextGo_app, hpf]
        exact ih

theorem sortGlob_filter (files : List (String × FileData))
    (hnd : (files.map Prod.fst).Nodup) :
    sortFiles (globJson (files.filter keepPath)) =
      (sortFiles (globJson files)).filter keepPath := by
  have e : globJson (files.filter keepPath) = (globJson files).filter keepPath := by
    simp only [globJson, List.filter_filter]
    congr 1
    funext a
    exact Bool.and_comm _ _
  have hperm : (sortFiles (globJson (files.filter keepPath))).Perm
      ((sortFiles (globJson files)).filter keepPath) := by
    refine (sortFiles_perm _).trans ?_
    rw [e]
    exact ((sortFiles_perm (globJson files)).filter keepPath).symm
  have hnd1 : ((globJson (files.filter keepPath)).map Prod.fst).Nodup := by
    rw [e]
    exact (globJson_nodup hnd).sublist ((List.filter_sublist _).map Prod.fst)
  exact List.eq_of_perm_of_sorted hperm
    (sortFiles_sorted_strict _ hnd1)
    ((sortFiles_sorted_strict _ (globJson_nodup hnd)).sublist (List.filter_sublist _))

/-! Claim theorems. -/

/-- C1, counterexample.  The claim states that `load_context` in
`src/app.py` never raises at the top level and skips a file that is
unreadable or malformed.  In `src/app.py` the `open(path, ...)` call
sits OUTSIDE the `try`, so a directory with one unreadable file (and
one perfectly valid interview file) makes the whole scan raise: the
model returns `Except.error` instead of any block list. -/
theorem c1_counterexample :
    contextParts_app [("/data/bad.json", FileData.unreadable),
      ("/data/good.json", FileData.parsed (Json.arr [Json.obj [("speaker", Json.str "Owner")]]))] =
      Except.error () := rfl

/-- C1, amended.  If no file of the directory is unreadable, the scan
of `src/app.py` never raises: malformed JSON is caught and skipped.
The spec's scenario holds in both drafts: one malformed file plus one
valid interview file yield exactly one context block; and
`src/imp_final_trial.py` also skips unreadable files (its `try` covers
the `open`), so there the scan never raises at all. -/
theorem c1_amended (files : List (String × FileData))
    (hr : ∀ f ∈ files, f.2 ≠ FileData.unreadable) :
    (∃ parts, contextParts_app files = Except.ok parts) ∧
    contextParts_app [("/d/a.json", FileData.malformed),
        ("/d/b.json", FileData.parsed (Json.arr [Json.obj [("speaker", Json.str "Owner"),
          ("question", Json.str "When?"), ("answer", Json.str "2019")]]))] =
      Except.ok ["=== Interview File: b.json ===\n\nOwner:\nQ: When?\nA: 2019"] ∧
    contextParts_imp [("/d/a.json", FileData.malformed),
        ("/d/b.json", FileData.parsed (Json.arr [Json.obj [("speaker", Json.str "Owner"),
          ("question", Json.str "When?"), ("answer", Json.str "2019")]]))] =
      ["=== Interview File: b.json ===\n\nOwner:\nQ: When?\nA: 2019"] ∧
    contextParts_imp [("/d/a.json", FileData.unreadable),
        ("/d/b.json", FileData.parsed (Json.arr [Json.obj [("speaker", Json.str "Owner"),
          ("question", Json.str "When?"), ("answer", Json.str "2019")]]))] =
      ["=== Interview File: b.json ===\n\nOwner:\nQ: When?\nA: 2019"] := by
  refine ⟨?_, rfl, rfl, rfl⟩
  exact contextGo_app_isOk _ (fun f hf => hr f (mem_of_mem_sortGlob hf))

/-- C1, witness. -/
theorem c1_amended_witness :
    ∃ parts, contextParts_app [("/d/a.json", FileData.malformed),
      ("/d/b.json", FileData.parsed (Json.arr []))] = Except.ok parts :=
  (c1_amended [("/d/a.json", FileData.malformed),
      ("/d/b.json", FileData.parsed (Json.arr []))]
    (by
      intro f hf
      fin_cases hf <;> exact fun h => FileData.noConfusion h)).1

/-- C2.  The classifier both drafts inline is total and a trichotomy:
a value classifies as Interview exactly when it is a list, as Survey
exactly when it is a dict carrying `survey_summary` or
`free_text_insights`, and as Unrecognized exactly otherwise. -/
theorem c2_classifier_trichotomy (j : Json) :
    (classify j = DocClass.interview ↔ ∃ xs, j = Json.arr xs) ∧
    (classify j = DocClass.survey ↔ ∃ kvs, j = Json.obj kvs ∧
      (hasKey kvs "survey_summary" || hasKey kvs "free_text_insights") = true) ∧
    (classify j = DocClass.unrecognized ↔
      classify j ≠ DocClass.interview ∧ classify j ≠ DocClass.survey) := by
  have hobj : ∀ kvs : List (String × Json), classify (Json.obj kvs) =
      if hasKey kvs "survey_summary" || hasKey kvs "free_text_insights"
      then DocClass.survey else DocClass.unrecognized := fun _ => rfl
  refine ⟨?_, ?_, ?_⟩
  · cases j with
    | obj kvs => rw [hobj]; split_ifs with hk <;> simp
    | arr xs => simp [classify]
    | null => simp [classify]
    | bool b => simp [classify]
    | num n => simp [classify]
    | str s => simp [classify]
  · cases j with
    | obj kvs =>
        rw [hobj]
        split_ifs with hk
        · constructor
          · intro _
            exact ⟨kvs, rfl, hk⟩
          · intro _
            rfl
        · constructor
          · intro hc
            exact absurd hc (by simp)
          · rintro ⟨kvs2, he, hcond⟩
            cases he
            exact absurd hcond hk
    | arr xs => simp [classify]
    | null => simp [classify]
    | bool b => simp [classify]
    | num n => simp [classify]
    | str s => simp [classify]
  · cases j with
    | obj kvs => rw [hobj]; split_ifs with hk <;> simp
    | arr xs => simp [classify]
    | null => simp [classify]
    | bool b => simp [classify]
    | num n => simp [classify]
    | str s => simp [classify]

/-- The turn block the spec documents: the rendering of `speaker`
(default the literal `Unknown`), `question` and `answer` (default
empty), in the fixed shape used by the Interview Formatter. -/
def specTurnBlock : Json → String
  | .obj kvs =>
      "\n" ++ pyStr (getField kvs "speaker" (Json.str "Unknown")) ++
      ":\nQ: " ++ pyStr (getField kvs "question" (Json.str "")) ++
      "\nA: " ++ pyStr (getField kvs "answer" (Json.str ""))
  | _ => ""

theorem mapTurns_eq_of_objs {entries : List Json}
    (h : ∀ e ∈ entries, ∃ kvs, e = Json.obj kvs) :
    mapTurns entries = Except.ok (entries.map specTurnBlock) := by
  induction entries with
  | nil => rfl
  | cons e rest ih =>
      obtain ⟨kvs, rfl⟩ := h e (List.mem_cons_self e rest)
      have hrest := ih (fun x hx => h x (by simp [hx]))
      simp only [mapTurns, turnBlock, hrest, List.map_cons, specTurnBlock]

/-- C3, counterexample.  The claim covers interview documents of any
element shape; but a turn that is not a dict makes `entry.get` raise
`AttributeError`.  On the document `["hello"]`, `src/app.py`'s
formatter catches the error and returns the empty string (not a header
plus one defaulted turn block), and `src/imp_final_trial.py`'s
formatter raises. -/
theorem c3_counterexample :
    load_and_parse_json_app "/d/i.json" [Json.str "hello"] = "" ∧
    load_and_parse_json_app "/d/i.json" [Json.str "hello"] ≠
      "=== Interview File: i.json ===" ++ "\n" ++ "\nUnknown:\nQ: \nA: " ∧
    load_and_parse_json_imp "/d/i.json" [Json.str "hello"] = Except.error () :=
  ⟨rfl, by decide, rfl⟩

/-- C3, amended.  For interview documents all of whose turns are
dicts, the formatter raises nothing and emits the header followed by
exactly one block per turn, in order, with `Unknown`/empty defaults
for missing fields; `src/app.py` and `src/imp_final_trial.py` agree on
the joined text. -/
theorem c3_amended (label path : String) (entries : List Json)
    (h : ∀ e ∈ entries, ∃ kvs, e = Json.obj kvs) :
    interviewParts label entries =
      Except.ok (interviewHeader label :: entries.map specTurnBlock) ∧
    load_and_parse_json_imp path entries =
      Except.ok (String.intercalate "\n"
        (interviewHeader (basename path) :: entries.map specTurnBlock)) ∧
    load_and_parse_json_app path entries =
      String.intercalate "\n"
        (interviewHeader (basename path) :: entries.map specTurnBlock) := by
  have hm := mapTurns_eq_of_objs h
  refine ⟨?_, ?_, ?_⟩ <;>
    simp only [interviewParts, load_and_parse_json_imp, load_and_parse_json_app, hm]

/-- C3, witness. -/
theorem c3_amended_witness :
    interviewParts "i.json" [Json.obj [("speaker", Json.str "Owner")], Json.obj []] =
      Except.ok ["=== Interview File: i.json ===", "\nOwner:\nQ: \nA: ",
        "\nUnknown:\nQ: \nA: "] := by
  rw [(c3_amended "i.json" "/d/i.json"
    [Json.obj [("speaker", Json.str "Owner")], Json.obj []]
    (by intro e he; fin_cases he <;> exact ⟨_, rfl⟩)).1]
  rfl

/-- C4.  A survey document without `survey_summary` never gets the
`--- SURVEY SUMMARY ---` section part, one without
`free_text_insights` never gets the `--- FREE TEXT INSIGHTS ---`
section part, and one with neither key formats to exactly the header
without failing, in both drafts. -/
theorem c4_survey_sections (label path : String) (kvs : List (String × Json)) :
    (hasKey kvs "survey_summary" = false →
      ∀ ps, surveyParts label kvs = Except.ok ps → summaryHeaderPart ∉ ps) ∧
    (hasKey kvs "free_text_insights" = false →
      ∀ ps, surveyParts label kvs = Except.ok ps → insightsHeaderPart ∉ ps) ∧
    (hasKey kvs "survey_summary" = false → hasKey kvs "free_text_insights" = false →
      surveyParts label kvs = Except.ok [surveyHeader label] ∧
      load_survey_json_imp path kvs = Except.ok (surveyHeader (basename path)) ∧
      load_survey_json_app path kvs = surveyHeader (basename path)) := by
  refine ⟨?_, ?_, ?_⟩
  · intro h1 ps hps
    have hn : lookupKey kvs "survey_summary" = none := (lookupKey_eq_none_iff _ _).mpr h1
    rw [surveyParts, hn] at hps
    cases hfi : lookupKey kvs "free_text_insights" with
    | none =>
        rw [hfi] at hps
        simp only [summarySection, insightsSection] at hps
        injection hps with hps
        subst hps
        intro hmem
        rcases List.mem_cons.mp hmem with he | hmem2
        · exact surveyHeader_ne_summaryHeader label he.symm
        · simp at hmem2
    | some v =>
        rw [hfi] at hps
        cases v with
        | obj m =>
            simp only [summarySection, insightsSection] at hps
            injection hps with hps
            subst hps
            intro hmem
            rcases List.mem_cons.mp hmem with he | hmem2
            · exact surveyHeader_ne_summaryHeader label he.symm
            · rw [List.nil_append] at hmem2
              rcases List.mem_cons.mp hmem2 with he | hmem3
              · exact absurd he (by decide)
              · rcases List.mem_map.mp hmem3 with ⟨p, _, he⟩
                exact qsPart_ne_summaryHeader p.1 p.2 he
        | null => simp [summarySection, insightsSection] at hps
        | bool b => simp [summarySection, insightsSection] at hps
        | num n => simp [summarySection, insightsSection] at hps
        | str s => simp [summarySection, insightsSection] at hps
        | arr xs => simp [summarySection, insightsSection] at hps
  · intro h2 ps hps
    have hn : lookupKey kvs "free_text_insights" = none := (lookupKey_eq_none_iff _ _).mpr h2
    rw [surveyParts, hn] at hps
    cases hfs : lookupKey kvs "survey_summary" with
    | none =>
        rw [hfs] at hps
        simp only [summarySection, insightsSection] at hps
        injection hps with hps
        subst hps
        intro hmem
        rcases List.mem_cons.mp hmem with he | hmem2
        · exact surveyHeader_ne_insightsHeader label he.symm
        · simp at hmem2
    | some v =>
        rw [hfs] at hps
        cases v with
        | obj m =>
            simp only [summarySection, insightsSection] at hps
            injection hps with hps
            subst hps
            intro hmem
            rcases List.mem_cons.mp hmem with he | hmem2
            · exact surveyHeader_ne_insightsHeader label he.symm
            · rw [List.append_nil] at hmem2
              rcases List.mem_cons.mp hmem2 with he | hmem3
              · exact absurd he (by decide)
              · rcases List.mem_flatMap.mp hmem3 with ⟨p, _, he⟩
                rcases List.mem_cons.mp he with he2 | he2
                · exact sectionPart_ne_insightsHeader p.1 he2.symm
                · rcases List.mem_cons.mp he2 with he3 | he3
                  · exact jsonDumps_ne_insightsHeader p.2 he3.symm
                  · simp at he3
        | null => simp [summarySection, insightsSection] at hps
        | bool b => simp [summarySection, insightsSection] at hps
        | num n => simp [summarySection, insightsSection] at hps
        | str s => simp [summarySection, insightsSection] at hps
        | arr xs => simp [summarySection, insightsSection] at hps
  · intro h1 h2
    have key : ∀ lab, surveyParts lab kvs = Except.ok [surveyHeader lab] := by
      intro lab
      rw [surveyParts, (lookupKey_eq_none_iff _ _).mpr h1,
        (lookupKey_eq_none_iff _ _).mpr h2]
      rfl
    refine ⟨key label, ?_, ?_⟩
    · rw [load_survey_json_imp, key (basename path)]
      exact congrArg Except.ok (intercalate_singleton _)
    · rw [load_survey_json_app, load_survey_json_imp, key (basename path)]
      exact intercalate_singleton _

/-- C4, witness. -/
theorem c4_witness :
    summaryHeaderPart ∉
      ["=== Survey Analytics File: s ===", "\n--- FREE TEXT INSIGHTS ---",
        "\nQ: q\nSummary: a"] := by
  have h := (c4_survey_sections "s" "/d/s.json"
    [("free_text_insights", Json.obj [("q", Json.str "a")])]).1
  exact h rfl _ rfl

/-- C5, counterexample.  The claim says both drafts exclude any path
containing `package` or `lock`; but `load_all_json_from_folder` in
`src/imp_final_trial.py` has no such filter, so a syntactically valid
survey document named `package.json` is ingested and counted. -/
theorem c5_counterexample :
    contextParts_imp [("/repo/package.json",
      FileData.parsed (Json.obj [("free_text_insights", Json.obj [("Q1", Json.str "A1")])]))] =
    ["=== Survey Analytics File: package.json ===\n\n--- FREE TEXT INSIGHTS ---\n\nQ: Q1\nSummary: A1"] :=
  rfl

/-- C5, amended.  Only `src/app.py` excludes paths containing
`package` or `lock` (case-sensitive): its assembled context and block
count over any duplicate-free directory equal those over the directory
with all such files removed.  `src/imp_final_trial.py` performs no
such exclusion. -/
theorem c5_amended (files : List (String × FileData))
    (hnd : (files.map Prod.fst).Nodup) :
    contextParts_app files = contextParts_app (files.filter keepPath) := by
  rw [contextParts_app, contextParts_app, sortGlob_filter files hnd,
    contextGo_app_filter (sortFiles (globJson files))]

/-- C5, witness. -/
theorem c5_amended_witness :
    contextParts_app
      [("/repo/package.json",
        FileData.parsed (Json.obj [("free_text_insights", Json.obj [("q", Json.str "a")])])),
       ("/repo/i.json", FileData.parsed (Json.arr []))] =
    contextParts_app
      ([("/repo/package.json",
        FileData.parsed (Json.obj [("free_text_insights", Json.obj [("q", Json.str "a")])])),
       ("/repo/i.json", FileData.parsed (Json.arr []))].filter keepPath) :=
  c5_amended _ (by decide)

/-- C6.  Both assemblers are deterministic functions of the directory
contents: permuting the directory listing (with duplicate-free paths)
leaves the output byte-identical, the processed file list is sorted
lexicographically by full path, and the blocks are joined with a
blank-line separator in that order. -/
theorem c6_deterministic_sorted (files files2 : List (String × FileData))
    (hperm : files.Perm files2) (hnd : (files.map Prod.fst).Nodup) :
    load_context files = load_context files2 ∧
    load_all_json_from_folder files = load_all_json_from_folder files2 ∧
    List.Sorted fileLe (sortFiles (globJson files)) ∧
    load_all_json_from_folder files = String.intercalate "\n\n" (contextParts_imp files) ∧
    load_context files =
      (contextParts_app files).map (fun ps => String.intercalate "\n\n" ps) := by
  have hs : sortFiles (globJson files) = sortFiles (globJson files2) :=
    sortFiles_eq_of_perm (hperm.filter _) (globJson_nodup hnd)
  refine ⟨?_, ?_, sortFiles_sorted _, rfl, rfl⟩
  · simp only [load_context, contextParts_app, hs]
  · simp only [load_all_json_from_folder, contextParts_imp, hs]

/-- C6, witness. -/
theorem c6_witness :
    load_context [("/d/b.json", FileData.parsed (Json.arr [])),
        ("/d/a.json", FileData.malformed)] =
      load_context [("/d/a.json", FileData.malformed),
        ("/d/b.json", FileData.parsed (Json.arr []))] :=
  (c6_deterministic_sorted _ _ (List.Perm.swap _ _ _) (by decide)).1

theorem str_append_assoc (a b c : String) : a ++ b ++ c = a ++ (b ++ c) :=
  string_eq_of_data_eq (by simp [String.data_append, List.append_assoc])

/-- The static role/behavior instruction of `src/app.py`'s prompt:
everything before the opening delimiter line. -/
def staticInstruction_app : String :=
  "\nYou are an analytical assistant, built to answer questions that cafe entreprenuers have when starting a new cafe. \nYou DO NOT just repeat or summarize the context provided.\n\nYour goals:\n1. Use the interview transcript contexts as background knowledge.\n2. Use the survey analytics as a customer perspective to cafe-going.\n3. Use both transcripts and survey to give holistic answers.\n4. Think beyond explicit text.\n5. Infer patterns, motives, insights, and deeper meanings.\n6. Provide thoughtful, evaluative, and analytical answers.\n7. If the user asks about something subjective (e.g., fonts, design decisions), use the context to think of an answer.\n\nBe concise, analytical, and insight-driven.\n\n"

/-- The static role/behavior instruction of `src/imp_final_trial.py`'s
prompt: everything before the opening delimiter line. -/
def staticInstruction_imp : String :=
  "\n    You are an analytical assistant, built to answer questions that cafe entrepreneurs have when starting a new cafe. \n    You DO NOT just repeat or summarize the context provided.\n\n    Your goals:\n    1. Use the interview transcript contexts as background knowledge.\n    2. Use the survey analytics as a customer perspective to cafe-going.\n    3. Use both transcripts and survey to give holistic answers.\n    4. Think beyond explicit text.\n    5. Infer patterns, motives, insights, and deeper meanings.\n    6. Provide thoughtful, evaluative, and analytical answers.\n\n    "

/-- The opening delimiter actually used by both drafts. -/
def ctxStartDelim : String := "--- INTERVIEW CONTEXT START ---"

/-- The closing delimiter actually used by both drafts. -/
def ctxEndDelim : String := "--- INTERVIEW CONTEXT END ---"

/-- C7, counterexample.  The claim names the literal delimiters
`--- CONTEXT START ---` / `--- CONTEXT END ---`; neither draft's
prompt contains that text anywhere (so the prompt cannot be a
concatenation through it): the delimiters actually emitted are
`--- INTERVIEW CONTEXT START ---` / `--- INTERVIEW CONTEXT END ---`. -/
theorem c7_counterexample :
    strContains (SYSTEM_INSTRUCTION "") "--- CONTEXT START ---" = false ∧
    strContains (SYSTEM_INSTRUCTION "") "--- CONTEXT END ---" = false ∧
    strContains (system_instruction_text "") "--- CONTEXT START ---" = false ∧
    strContains (system_instruction_text "") "--- CONTEXT END ---" = false ∧
    strContains (SYSTEM_INSTRUCTION "") "--- INTERVIEW CONTEXT START ---" = true ∧
    strContains (SYSTEM_INSTRUCTION "") "--- INTERVIEW CONTEXT END ---" = true := by
  set_option maxRecDepth 20000 in
  exact ⟨by decide, by decide, by decide, by decide, by decide, by decide⟩

/-- C7, amended.  Each draft's system prompt is the pure, fixed-order
concatenation of its static role/behavior instruction, the literal
delimiter `--- INTERVIEW CONTEXT START ---`, the assembled context
text, and the literal delimiter `--- INTERVIEW CONTEXT END ---`
(with the newlines, and in the imp draft the 4-space indentation, of
the source f-strings). -/
theorem c7_amended (ctx : String) :
    SYSTEM_INSTRUCTION ctx =
      staticInstruction_app ++ ctxStartDelim ++ "\n" ++ ctx ++
        ("\n" ++ ctxEndDelim ++ "\n") ∧
    system_instruction_text ctx =
      staticInstruction_imp ++ ctxStartDelim ++ "\n    " ++ ctx ++
        ("\n    " ++ ctxEndDelim ++ "\n    ") := by
  constructor
  · have h1 : sysLit1_app = staticInstruction_app ++ ctxStartDelim ++ "\n" := by
      set_option maxRecDepth 20000 in decide
    have h2 : sysLit2_app = "\n" ++ ctxEndDelim ++ "\n" := by
      set_option maxRecDepth 20000 in decide
    rw [SYSTEM_INSTRUCTION, h1, h2]
  · have h1 : sysLit1_imp = staticInstruction_imp ++ ctxStartDelim ++ "\n    " := by
      set_option maxRecDepth 20000 in decide
    have h2 : sysLit2_imp = "\n    " ++ ctxEndDelim ++ "\n    " := by
      set_option maxRecDepth 20000 in decide
    rw [system_instruction_text, h1, h2]

/-- C8.  In both drafts, a `POST /chat` request whose JSON body lacks
the expected field (`message` in `src/app.py`, `query` in
`src/imp_final_trial.py`) gets a 400 JSON error envelope, and the
external generation call is never invoked, whatever it would have
returned. -/
theorem c8_missing_field (bodyA bodyI : List (String × Json))
    (gen gen2 : Except String String)
    (hA : hasKey bodyA "message" = false)
    (hI : hasKey bodyI "query" = false) :
    chat_app bodyA gen = ⟨400, errorBody "No message provided", false⟩ ∧
    chat_imp bodyI gen2 = ⟨400, errorBody "No \x27query\x27 provided in request body", false⟩ := by
  constructor
  · have h1 : lookupKey bodyA "message" = none := (lookupKey_eq_none_iff _ _).mpr hA
    simp [chat_app, h1, pyTruthy]
  · have h1 : lookupKey bodyI "query" = none := (lookupKey_eq_none_iff _ _).mpr hI
    simp [chat_imp, h1, pyTruthy]

/-- C8, witness: the body `\x7b\x7d`. -/
theorem c8_missing_field_witness :
    chat_app [] (Except.ok "hi") = ⟨400, errorBody "No message provided", false⟩ ∧
    chat_imp [] (Except.ok "hi") =
      ⟨400, errorBody "No \x27query\x27 provided in request body", false⟩ :=
  c8_missing_field [] [] (Except.ok "hi") (Except.ok "hi") rfl rfl

/-- Whether a JSON value is a non-empty string (the shape the claim
says is required for the generation call to be invoked). -/
def isNonEmptyString : Json → Bool
  | .str s => !s.data.isEmpty
  | _ => false

/-- Whether the result of `dict.get` holds a non-empty string. -/
def isNonEmptyStringOpt : Option Json → Bool
  | some (Json.str s) => !s.data.isEmpty
  | _ => false

/-- C9, counterexample.  The `chat` handler of `src/app.py` tests only
Python truthiness and passes the raw value into
`client.models.generate_content`, so a field holding the number `1` —
not a non-empty string — still invokes the external generation call
there.  (In `src/imp_final_trial.py` the same request instead fails
`Part.from_text` validation before the call and is answered 500.) -/
theorem c9_counterexample :
    (chat_app [("message", Json.num 1)] (Except.ok "r")).generateCalled = true ∧
    isNonEmptyString (Json.num 1) = false ∧
    (chat_imp [("query", Json.num 1)] (Except.ok "r")).generateCalled = false ∧
    (chat_imp [("query", Json.num 1)] (Except.ok "r")).status = 500 :=
  ⟨rfl, rfl, rfl, rfl⟩

/-- C9, amended.  A present-but-empty-string field is rejected with
the same 400 error as a missing field, since both handlers test
truthiness.  In `src/app.py` the external generation call is invoked
exactly when the field value is truthy (non-empty strings, but also
nonzero numbers, `true`, and non-empty arrays/objects).  In
`src/imp_final_trial.py` the `Part.from_text(text=user_query)`
validation raises on every truthy non-string before the call, which is
answered 500 with the call never invoked, so there the generation call
is invoked exactly when the field holds a non-empty string. -/
theorem c9_amended (bodyA bodyI : List (String × Json))
    (gen gen2 : Except String String)
    (hA : lookupKey bodyA "message" = some (Json.str ""))
    (hI : lookupKey bodyI "query" = some (Json.str "")) :
    chat_app bodyA gen = ⟨400, errorBody "No message provided", false⟩ ∧
    chat_imp bodyI gen2 = ⟨400, errorBody "No \x27query\x27 provided in request body", false⟩ ∧
    (∀ (b : List (String × Json)) (g : Except String String),
      (chat_app b g).generateCalled = pyTruthy (lookupKey b "message") ∧
      (chat_imp b g).generateCalled = isNonEmptyStringOpt (lookupKey b "query")) ∧
    (∀ g : Except String String,
      (chat_imp [("query", Json.num 1)] g).status = 500 ∧
      (chat_imp [("query", Json.num 1)] g).generateCalled = false) := by
  refine ⟨?_, ?_, ?_, fun g => ⟨rfl, rfl⟩⟩
  · have ht : pyTruthy (lookupKey bodyA "message") = false := by
      rw [hA]
      rfl
    simp [chat_app, ht]
  · have ht : pyTruthy (lookupKey bodyI "query") = false := by
      rw [hI]
      rfl
    simp [chat_imp, ht]
  · intro b g
    constructor
    · rcases Bool.eq_false_or_eq_true (pyTruthy (lookupKey b "message")) with h | h
      · rw [h]
        simp [chat_app, h]
        cases g <;> rfl
      · rw [h]
        simp [chat_app, h]
    · cases hq : lookupKey b "query" with
      | none => simp [chat_imp, hq, pyTruthy, isNonEmptyStringOpt]
      | some j =>
          cases j with
          | str s =>
              rcases Bool.eq_false_or_eq_true s.data.isEmpty with he | he
              · simp [chat_imp, hq, pyTruthy, truthy, he, isNonEmptyStringOpt]
              · simp [chat_imp, hq, pyTruthy, truthy, he, partFromText,
                  isNonEmptyStringOpt]
                cases g <;> rfl
          | null => simp [chat_imp, hq, pyTruthy, truthy, isNonEmptyStringOpt]
          | bool c =>
              cases c <;>
                simp [chat_imp, hq, pyTruthy, truthy, partFromText,
                  isNonEmptyStringOpt]
          | num n =>
              by_cases he : (n == 0) = true
              · simp [chat_imp, hq, pyTruthy, truthy, he, isNonEmptyStringOpt]
              · simp [chat_imp, hq, pyTruthy, truthy, he, partFromText,
                  isNonEmptyStringOpt]
          | arr xs =>
              cases xs <;>
                simp [chat_imp, hq, pyTruthy, truthy, partFromText,
                  isNonEmptyStringOpt]
          | obj kvs =>
              cases kvs <;>
                simp [chat_imp, hq, pyTruthy, truthy, partFromText,
                  isNonEmptyStringOpt]

/-- C9, witness. -/
theorem c9_amended_witness :
    chat_app [("message", Json.str "")] (Except.ok "r") =
      ⟨400, errorBody "No message provided", false⟩ ∧
    chat_imp [("query", Json.str "")] (Except.ok "r") =
      ⟨400, errorBody "No \x27query\x27 provided in request body", false⟩ := by
  have h := c9_amended [("message", Json.str "")] [("query", Json.str "")]
    (Except.ok "r") (Except.ok "r") rfl rfl
  exact ⟨h.1, h.2.1⟩

/-- C10.  Classification checks only key presence: the document whose
`survey_summary` holds a string classifies as Survey, yet the survey
formatter's `.items()` iteration raises on it.  In `src/app.py` the
formatter swallows the error and contributes an empty-string block
that is still counted (one block, the empty string); in
`src/imp_final_trial.py` the exception skips the whole file (no
block). -/
theorem c10_survey_value_shape :
    classify (Json.obj [("survey_summary", Json.str "oops")]) = DocClass.survey ∧
    surveyParts "s.json" [("survey_summary", Json.str "oops")] = Except.error () ∧
    contextParts_app [("/d/s.json",
      FileData.parsed (Json.obj [("survey_summary", Json.str "oops")]))] = Except.ok [""] ∧
    load_context [("/d/s.json",
      FileData.parsed (Json.obj [("survey_summary", Json.str "oops")]))] = Except.ok "" ∧
    contextParts_imp [("/d/s.json",
      FileData.parsed (Json.obj [("survey_summary", Json.str "oops")]))] = [] :=
  ⟨rfl, rfl, rfl, rfl, rfl⟩

end Imp25
